import Mathlib

/-!
Shallow embedding of `src/export_functions.py`, an IDA Pro script that
exports the host's function list to a Markdown file, together with proofs
of the specification's testable properties.

The host environment (IDA) is modelled as a read-only record `Host`:
`idautils.Functions()` is the list `functions` (in host iteration order),
`ida_name.get_name` is `getName`, `ida_nalt.get_root_filename` is
`rootFilename`, and the clock reading `datetime.datetime.now()` is `now`.

File-system effects are modelled explicitly: the content previously stored
at the output path is `prev : Option String` (`none` = no file), and the
possible exceptions of `open` / `write` are an ambient `fault : Option Fault`
(`openFail` = the directory is missing or unwritable so `open` raises;
`writeFail k` = the k-th `md_file.write` call raises).  Each run also
produces an event trace recording the opening and the unconditional closing
of the file handle performed by the `with` block.
-/

namespace ExportFunctions

/-- A clock reading, the components of `datetime.datetime.now()`. -/
structure DateTime where
  year : Nat
  month : Nat
  day : Nat
  hour : Nat
  minute : Nat
  second : Nat
deriving DecidableEq, Repr

/-- Zero-pad a number to two digits, as `%m`, `%d`, `%H`, `%M`, `%S` do. -/
def pad2 (n : Nat) : String :=
  if n < 10 then "0" ++ Nat.repr n else Nat.repr n

/-- Zero-pad a number to four digits, as `%Y` does. -/
def pad4 (n : Nat) : String :=
  if n < 10 then "000" ++ Nat.repr n
  else if n < 100 then "00" ++ Nat.repr n
  else if n < 1000 then "0" ++ Nat.repr n
  else Nat.repr n

/-- `strftime("%Y-%m-%d %H:%M:%S")` on a clock reading. -/
def strftime (t : DateTime) : String :=
  pad4 t.year ++ "-" ++ pad2 t.month ++ "-" ++ pad2 t.day ++ " " ++
    pad2 t.hour ++ ":" ++ pad2 t.minute ++ ":" ++ pad2 t.second

/-- The character for the digit value `d` (0-9 then A-Z), as Python's
integer formatting produces for bases up to 36 with uppercase format `X`. -/
def digitChar (d : Nat) : Char :=
  if d < 10 then Char.ofNat (48 + d) else Char.ofNat (55 + d)

/-- Most-significant-first digit expansion of `n` in base `b`, prepended to
`acc`; the recursion of positional integer printing. -/
def digitsAux (b : Nat) (hb : 1 < b) : Nat → List Char → List Char
  | 0, acc => acc
  | (n + 1), acc => digitsAux b hb ((n + 1) / b) (digitChar ((n + 1) % b) :: acc)
termination_by n => n
decreasing_by exact Nat.div_lt_self (Nat.succ_pos n) hb

/-- Render `n` in base `b` with no leading zeros ("natural width"), `"0"`
for zero — the behaviour of Python's `format(n, base)` family. -/
def natToBase (b : Nat) (hb : 1 < b) (n : Nat) : String :=
  if n = 0 then "0" else String.mk (digitsAux b hb n [])

/-- Python `f"{n:X}"`: uppercase hexadecimal, no `0x`, no leading zeros. -/
def pyHexUpper (n : Nat) : String := natToBase 16 (by norm_num) n

/-- Python `f"{n}"` = `str(n)`: base-10 rendering. -/
def pyDec (n : Nat) : String := natToBase 10 (by norm_num) n

/-- Numeric value of one digit character (inverse of `digitChar`). -/
def digitVal (c : Char) : Nat :=
  if c.toNat ≤ 57 then c.toNat - 48 else c.toNat - 55

/-- Read a digit string back as a number in base `b`: the semantic value a
reader assigns to the rendered column. -/
def parseBase (b : Nat) (s : String) : Nat :=
  s.data.foldl (fun a c => b * a + digitVal c) 0

/-- The read-only host state consumed by the script. -/
structure Host where
  /-- `idautils.Functions()`: function start addresses in host order. -/
  functions : List Nat
  /-- `ida_name.get_name`. -/
  getName : Nat → String
  /-- `ida_nalt.get_root_filename()`. -/
  rootFilename : String
  /-- The clock reading taken by `datetime.datetime.now()`. -/
  now : DateTime

/-- Line 41: `md_file.write(f"# Function List - {binary_name}\n\n")`. -/
def titleLine (h : Host) : String :=
  "# Function List - " ++ h.rootFilename ++ "\n\n"

/-- Line 45: `md_file.write(f"Export Time: {current_time}\n\n")`. -/
def timeLine (h : Host) : String :=
  "Export Time: " ++ strftime h.now ++ "\n\n"

/-- Line 48: the table header row. -/
def tableHeader1 : String :=
  "| # | Address (Hex) | Address (Dec) | Function Name |\n"

/-- Line 49: the table separator row. -/
def tableHeader2 : String :=
  "|------|--------------|------------|-------|\n"

/-- Line 55: one data row for function `ea` at 1-based position `index`. -/
def rowLine (h : Host) (index : Nat) (ea : Nat) : String :=
  "| " ++ pyDec index ++ " | `0x" ++ pyHexUpper ea ++ "` | " ++ pyDec ea ++
    " | `" ++ h.getName ea ++ "` |\n"

/-- Line 59: `md_file.write(f"\n\nTotal: {count} functions\n")`. -/
def summaryLine (count : Nat) : String :=
  "\n\nTotal: " ++ pyDec count ++ " functions\n"

/-- Lines 52-56: the `for index, func_ea in enumerate(Functions(), 1)` loop.
Given the remaining addresses, the next 1-based `index` and the current
`count`, it returns the row strings written and the final `count`. -/
def writeLoop (h : Host) : List Nat → Nat → Nat → List String × Nat
  | [], _, count => ([], count)
  | ea :: rest, index, count =>
    let line := rowLine h index ea
    let out := writeLoop h rest (index + 1) (count + 1)
    (line :: out.1, out.2)

/-- The data rows written for host `h` (loop started at index 1, count 0). -/
def rowStrings (h : Host) : List String := (writeLoop h h.functions 1 0).1

/-- The final value of the `count` variable after the loop. -/
def exportCount (h : Host) : Nat := (writeLoop h h.functions 1 0).2

/-- The full sequence of `md_file.write` calls made inside the `with` block,
in order (lines 41, 45, 48, 49, the loop rows, then line 59). -/
def listWrites (h : Host) : List String :=
  titleLine h :: timeLine h :: tableHeader1 :: tableHeader2 ::
    (rowStrings h ++ [summaryLine (exportCount h)])

/-- Events on the output file handle. -/
inductive Ev where
  | openedFile : Ev
  | wroteChunk : String → Ev
  | closedFile : Ev
deriving DecidableEq, Repr

/-- The possible exceptions of a run: `open` raising (missing/unwritable
directory), or the `k`-th write call raising; `msg` is `str(e)`. -/
inductive Fault where
  | openFail : String → Fault
  | writeFail : Nat → String → Fault
deriving DecidableEq, Repr

/-- A Python exception propagating out of the `with` block: its message,
the file-system state it leaves behind, and the handle events so far. -/
structure PyError where
  msg : String
  file : Option String
  trace : List Ev
deriving DecidableEq, Repr

/-- The observable outcome of `export_functions`: its return value, the
content at the output path afterwards (`none` = no file), the console
message printed, and the handle events. -/
structure ExportResult where
  retval : Nat
  file : Option String
  console : String
  trace : List Ev
deriving DecidableEq, Repr

/-- Record the event of the successful write of chunk `w` in front of the
events of the rest of the run. -/
def tagWrite (w : String) :
    Except (String × String × List Ev) (String × List Ev) →
      Except (String × String × List Ev) (String × List Ev)
  | Except.ok (c, evs) => Except.ok (c, Ev.wroteChunk w :: evs)
  | Except.error (m, c, evs) => Except.error (m, c, Ev.wroteChunk w :: evs)

/-- The exception message raised by the `i`-th write call, if the fault
environment makes that call fail; `none` when the call succeeds. -/
def faultAt (fault : Option Fault) (i : Nat) : Option String :=
  match fault with
  | some (Fault.writeFail k m) => if k = i then some m else none
  | _ => none

/-- Run the write calls `ws` (the `i`-th call has global index `i`) against
the fault environment, accumulating file content into `acc`.  A triggered
`writeFail` raises, leaving the partial content on disk. -/
def runWriteList (fault : Option Fault) :
    List String → Nat → String → Except (String × String × List Ev) (String × List Ev)
  | [], _, acc => Except.ok (acc, [])
  | w :: ws, i, acc =>
    match faultAt fault i with
    | some m => Except.error (m, acc, [])
    | none => tagWrite w (runWriteList fault ws (i + 1) (acc ++ w))

/-- The exception message raised by `open`, if the fault environment makes
the open call fail (missing or unwritable directory). -/
def openFaultMsg : Option Fault → Option String
  | some (Fault.openFail m) => some m
  | _ => none

/-- Wrap up the outcome of the write sequence once the file was opened:
the `with` block closes the handle on both the normal and the exceptional
exit, so the close event is appended to the trace in either case. -/
def finishBody (h : Host) (path : String)
    (res : Except (String × String × List Ev) (String × List Ev)) :
    Except PyError ExportResult :=
  match res with
  | Except.error (m, c, evs) =>
      Except.error ⟨m, some c, Ev.openedFile :: (evs ++ [Ev.closedFile])⟩
  | Except.ok (c, evs) =>
      Except.ok ⟨exportCount h, some c,
        "Successfully exported " ++ pyDec (exportCount h) ++
          " functions to: " ++ path,
        Ev.openedFile :: (evs ++ [Ev.closedFile])⟩

/-- Lines 37-59, the `try` body: open the file (truncating it), perform the
writes, close the handle when the `with` block exits — normally or by
exception.  An `openFail` raises before any file is created or truncated. -/
def runBody (h : Host) (path : String) (prev : Option String)
    (fault : Option Fault) : Except PyError ExportResult :=
  match openFaultMsg fault with
  | some m => Except.error ⟨m, prev, []⟩
  | none => finishBody h path (runWriteList fault (listWrites h) 0 "")

/-- Lines 25-65: `export_functions(output_path)`.  The `except Exception`
handler catches any exception from the body, prints the diagnostic and
returns 0; the function itself never raises (its result type is plain). -/
def export_functions (h : Host) (path : String) (prev : Option String)
    (fault : Option Fault) : ExportResult :=
  match runBody h path prev fault with
  | Except.ok r => r
  | Except.error e => ⟨0, e.file, "Export failed: " ++ e.msg, e.trace⟩

/-- Truthiness of the `ask_file` result: Python's `not output_path` is true
for `None` and for the empty string. -/
def pyFalsy : Option String → Bool
  | none => true
  | some s => s = ""

/-- Inputs of `main`: the directory of the loaded database (or `none` when
`get_input_file_path` raises), the working directory, the save dialog's
answer, the host state, the prior file content and the fault environment. -/
structure MainEnv where
  inputFileDir : Option String
  cwd : String
  askFileResult : Option String
  host : Host
  prev : Option String
  fault : Option Fault

/-- Observable outcome of `main`: console messages in order, the info
dialog shown (if any), and whether/how the exporter was invoked. -/
structure MainResult where
  consoleLog : List String
  infoDialog : Option String
  exportCalled : Bool
  returnedCount : Option Nat
deriving DecidableEq, Repr

/-- `os.path.join(dir, name)` for the paths occurring here. -/
def joinPath (d : String) (f : String) : String :=
  if d = "" then f else d ++ "/" ++ f

/-- Lines 67-95: `main()`.  Computes the default path, asks for a save
path, logs "Export cancelled" on a falsy answer, otherwise runs the export
and shows the info dialog exactly when the returned count is positive. -/
def main (env : MainEnv) : MainResult :=
  let defaultDir :=
    match env.inputFileDir with
    | some d => d
    | none => env.cwd
  let defaultFilename := joinPath defaultDir "exported_functions.md"
  let _ := defaultFilename
  match env.askFileResult with
  | none => ⟨["Export cancelled"], none, false, none⟩
  | some p =>
    if p = "" then ⟨["Export cancelled"], none, false, none⟩
    else
      let r := export_functions env.host p env.prev env.fault
      ⟨[r.console],
        if r.retval > 0 then
          some ("Successfully exported " ++ pyDec r.retval ++
            " functions to:\n" ++ p)
        else none,
        true, some r.retval⟩

/-- Concatenation of a sequence of write chunks, in order. -/
def concatList : List String → String
  | [] => ""
  | s :: l => s ++ concatList l

/-- The document produced by a fully successful run. -/
def docStr (h : Host) : String := concatList (listWrites h)

/-- Characters allowed in the uppercase hexadecimal column. -/
def hexUpperChars : List Char := "0123456789ABCDEF".data

/-- A concrete host with an empty function table, for witnesses. -/
def hostEmpty : Host :=
  ⟨[], fun _ => "", "empty.bin", ⟨2024, 1, 2, 3, 4, 5⟩⟩

/-- A concrete host holding the spec's two-function example, for
witnesses: addresses 0x1000 and 0x2010 named main and sub_2010. -/
def hostTwo : Host :=
  ⟨[4096, 8208],
    fun ea => if ea = 4096 then "main" else "sub_2010",
    "demo.bin", ⟨2024, 1, 2, 3, 4, 5⟩⟩

/-- A `main` environment whose save dialog was cancelled. -/
def envCancel : MainEnv := ⟨some "/tmp", "/wd", none, hostTwo, none, none⟩

/-- A `main` environment whose save dialog confirmed a path. -/
def envGo : MainEnv := ⟨some "/tmp", "/wd", some "o.md", hostTwo, none, none⟩

/-! ### Helper lemmas about the digit renderer -/

theorem digitsAux_append (b : Nat) (hb : 1 < b) :
    ∀ n acc, digitsAux b hb n acc = digitsAux b hb n [] ++ acc := by
  intro n
  induction n using Nat.strong_induction_on with
  | _ n ih =>
    intro acc
    match n with
    | 0 => simp [digitsAux]
    | Nat.succ m =>
      rw [digitsAux, digitsAux]
      rw [ih ((m + 1) / b) (Nat.div_lt_self (Nat.succ_pos m) hb)
        (digitChar ((m + 1) % b) :: acc)]
      rw [ih ((m + 1) / b) (Nat.div_lt_self (Nat.succ_pos m) hb)
        [digitChar ((m + 1) % b)]]
      simp

theorem digitVal_digitChar {d : Nat} (hd : d < 36) :
    digitVal (digitChar d) = d := by
  interval_cases d <;> decide

theorem foldl_digitsAux (b : Nat) (hb : 1 < b) (hb36 : b ≤ 36) :
    ∀ n, (digitsAux b hb n []).foldl (fun a c => b * a + digitVal c) 0 = n := by
  intro n
  induction n using Nat.strong_induction_on with
  | _ n ih =>
    match n with
    | 0 => simp [digitsAux]
    | Nat.succ m =>
      rw [digitsAux, digitsAux_append]
      rw [List.foldl_append]
      rw [ih ((m + 1) / b) (Nat.div_lt_self (Nat.succ_pos m) hb)]
      simp only [List.foldl_cons, List.foldl_nil]
      rw [digitVal_digitChar (Nat.lt_of_lt_of_le (Nat.mod_lt _ (by omega)) hb36)]
      exact Nat.div_add_mod (m + 1) b

/-- Parsing a rendered numeral in the same base recovers the number. -/
theorem parseBase_natToBase (b : Nat) (hb : 1 < b) (hb36 : b ≤ 36) (n : Nat) :
    parseBase b (natToBase b hb n) = n := by
  by_cases h : n = 0
  · subst h
    have h0 : natToBase b hb 0 = "0" := rfl
    rw [h0]
    have h1 : parseBase b "0" = b * 0 + digitVal '0' := rfl
    rw [h1]
    have h2 : digitVal '0' = 0 := rfl
    rw [h2]
    omega
  · simp only [natToBase, if_neg h, parseBase, String.mk]
    exact foldl_digitsAux b hb hb36 n

theorem mem_digitsAux (b : Nat) (hb : 1 < b) :
    ∀ n acc c, c ∈ digitsAux b hb n acc →
      c ∈ acc ∨ ∃ d, d < b ∧ c = digitChar d := by
  intro n
  induction n using Nat.strong_induction_on with
  | _ n ih =>
    intro acc c hc
    match n with
    | 0 => exact Or.inl (by simpa [digitsAux] using hc)
    | Nat.succ m =>
      rw [digitsAux] at hc
      rcases ih ((m + 1) / b) (Nat.div_lt_self (Nat.succ_pos m) hb) _ c hc with
        h | h
      · rcases List.mem_cons.mp h with h | h
        · exact Or.inr ⟨(m + 1) % b, Nat.mod_lt _ (by omega), h⟩
        · exact Or.inl h
      · exact Or.inr h

theorem head?_digitsAux (b : Nat) (hb : 1 < b) :
    ∀ n, 0 < n → ∃ d, 0 < d ∧ d < b ∧
      (digitsAux b hb n []).head? = some (digitChar d) := by
  intro n
  induction n using Nat.strong_induction_on with
  | _ n ih =>
    intro hn
    match n, hn with
    | Nat.succ m, _ =>
      rw [digitsAux, digitsAux_append]
      by_cases hq : (m + 1) / b = 0
      · refine ⟨(m + 1) % b, ?_, Nat.mod_lt _ (by omega), ?_⟩
        · have hlt : m + 1 < b := by
            rcases Nat.lt_or_ge (m + 1) b with h | h
            · exact h
            · exact absurd hq (by
                have := Nat.one_le_div_iff (by omega : 0 < b) |>.mpr h
                omega)
          rw [Nat.mod_eq_of_lt hlt]
          omega
        · rw [hq]
          simp [digitsAux]
      · obtain ⟨d, hd0, hdb, hh⟩ :=
          ih ((m + 1) / b) (Nat.div_lt_self (Nat.succ_pos m) hb)
            (Nat.pos_of_ne_zero hq)
        refine ⟨d, hd0, hdb, ?_⟩
        have hne : digitsAux b hb ((m + 1) / b) [] ≠ [] := by
          intro hnil
          rw [hnil] at hh
          simp at hh
        rw [List.head?_append_of_ne_nil _ hne]
        exact hh

theorem digitChar_ne_zero_char {d : Nat} (hd0 : 0 < d) (hd : d < 36) :
    digitChar d ≠ '0' := by
  interval_cases d <;> decide

theorem pyHexUpper_chars (n : Nat) :
    ∀ c ∈ (pyHexUpper n).data, c ∈ hexUpperChars := by
  intro c hc
  by_cases h : n = 0
  · subst h
    have h0 : pyHexUpper 0 = "0" := rfl
    rw [h0] at hc
    have h1 : ("0" : String).data = ['0'] := rfl
    rw [h1] at hc
    simp only [List.mem_singleton] at hc
    subst hc
    decide
  · simp only [pyHexUpper, natToBase, if_neg h, String.mk] at hc
    rcases mem_digitsAux 16 (by norm_num) n [] c hc with h' | ⟨d, hd, rfl⟩
    · simp at h'
    · interval_cases d <;> decide

theorem pyHexUpper_no_leading_zero {n : Nat} (hn : n ≠ 0) :
    (pyHexUpper n).data.head? ≠ some '0' := by
  simp only [pyHexUpper, natToBase, if_neg hn, String.mk]
  obtain ⟨d, hd0, hdb, hh⟩ :=
    head?_digitsAux 16 (by norm_num) n (Nat.pos_of_ne_zero hn)
  rw [hh]
  intro hcontra
  exact digitChar_ne_zero_char hd0 (by omega) (Option.some.inj hcontra)

/-! ### Helper lemmas about the write loop and the write runner -/

theorem concatList_append :
    ∀ a b : List String, concatList (a ++ b) = concatList a ++ concatList b := by
  intro a b
  induction a with
  | nil => simp [concatList, String.empty_append]
  | cons s l ih => simp [concatList, ih, String.append_assoc]

theorem writeLoop_spec (h : Host) :
    ∀ (l : List Nat) (i c : Nat),
      writeLoop h l i c =
        ((List.enumFrom i l).map (fun p => rowLine h p.1 p.2), c + l.length) := by
  intro l
  induction l with
  | nil => intro i c; rfl
  | cons ea rest ih =>
    intro i c
    simp only [writeLoop, ih, List.enumFrom_cons, List.map_cons, List.length_cons,
      Prod.mk.injEq, true_and]
    omega

theorem rowStrings_length (h : Host) :
    (rowStrings h).length = h.functions.length := by
  simp [rowStrings, writeLoop_spec]

theorem exportCount_eq (h : Host) : exportCount h = h.functions.length := by
  simp [exportCount, writeLoop_spec]

theorem rowStrings_getElem? (h : Host) (j : Nat) :
    (rowStrings h)[j]? = (h.functions[j]?).map (fun ea => rowLine h (1 + j) ea) := by
  simp only [rowStrings, writeLoop_spec, List.getElem?_map, List.getElem?_enumFrom]
  cases h.functions[j]? <;> rfl

theorem faultAt_eq_none {fault : Option Fault}
    (hf : ∀ k m, fault ≠ some (Fault.writeFail k m)) (i : Nat) :
    faultAt fault i = none := by
  cases fault with
  | none => rfl
  | some f => cases f with
    | openFail m => rfl
    | writeFail k m => exact absurd rfl (hf k m)

/-- With no triggered fault, every write succeeds and the file holds the
concatenation of all chunks. -/
theorem runWriteList_none (fault : Option Fault)
    (hf : ∀ k m, fault ≠ some (Fault.writeFail k m)) :
    ∀ (ws : List String) (i : Nat) (acc : String),
      runWriteList fault ws i acc =
        Except.ok (acc ++ concatList ws, ws.map Ev.wroteChunk) := by
  intro ws
  induction ws with
  | nil =>
    intro i acc
    simp [runWriteList, concatList, String.append_empty]
  | cons w ws ih =>
    intro i acc
    simp only [runWriteList, faultAt_eq_none hf i]
    simp [tagWrite, ih, concatList, String.append_assoc]

/-- Every run of the write sequence either completes with the full content
or raises some error. -/
theorem runWriteList_cases (fault : Option Fault) :
    ∀ (ws : List String) (i : Nat) (acc : String),
      runWriteList fault ws i acc =
          Except.ok (acc ++ concatList ws, ws.map Ev.wroteChunk) ∨
        ∃ e, runWriteList fault ws i acc = Except.error e := by
  intro ws
  induction ws with
  | nil =>
    intro i acc
    left
    simp [runWriteList, concatList, String.append_empty]
  | cons w ws ih =>
    intro i acc
    cases hfa : faultAt fault i with
    | some m =>
      right
      exact ⟨(m, acc, []), by simp [runWriteList, hfa]⟩
    | none =>
      rcases ih (i + 1) (acc ++ w) with hok | ⟨⟨m, c, evs⟩, herr⟩
      · left
        simp [runWriteList, hfa, hok, tagWrite, concatList, String.append_assoc]
      · right
        refine ⟨(m, c, Ev.wroteChunk w :: evs), ?_⟩
        simp [runWriteList, hfa, herr, tagWrite]

/-- A successful body run: returns the count, writes the whole document,
and the handle trace opens first and closes last. -/
theorem runBody_none (h : Host) (path : String) (prev : Option String) :
    runBody h path prev none =
      Except.ok ⟨exportCount h, some (docStr h),
        "Successfully exported " ++ pyDec (exportCount h) ++
          " functions to: " ++ path,
        Ev.openedFile ::
          ((listWrites h).map Ev.wroteChunk ++ [Ev.closedFile])⟩ := by
  simp only [runBody, openFaultMsg]
  rw [runWriteList_none none (fun k m h' => Option.noConfusion h')]
  simp only [finishBody, String.empty_append, docStr]

/-- The document splits into the fixed prelude, the data rows and the
summary line for the final count. -/
theorem docStr_eq (h : Host) :
    docStr h = titleLine h ++ (timeLine h ++ (tableHeader1 ++ (tableHeader2 ++
      (concatList (rowStrings h) ++ summaryLine h.functions.length)))) := by
  simp only [docStr, listWrites, concatList, concatList_append, exportCount_eq,
    String.append_empty]

/-- A run with no fault returns the full count, the whole document, the
success message, and a trace that opens, writes every chunk and closes. -/
theorem export_functions_none (h : Host) (path : String) (prev : Option String) :
    export_functions h path prev none =
      ⟨h.functions.length, some (docStr h),
        "Successfully exported " ++ pyDec h.functions.length ++
          " functions to: " ++ path,
        Ev.openedFile ::
          ((listWrites h).map Ev.wroteChunk ++ [Ev.closedFile])⟩ := by
  simp only [export_functions, runBody_none, exportCount_eq]

/-- A run with a triggered open fault returns 0, leaves the file system
untouched and never touches the handle. -/
theorem export_functions_openFail (h : Host) (path : String)
    (prev : Option String) (m : String) :
    export_functions h path prev (some (Fault.openFail m)) =
      ⟨0, prev, "Export failed: " ++ m, []⟩ := by
  simp only [export_functions, runBody, openFaultMsg]

/-- Every run either succeeds completely (full document, full count) or
returns 0. -/
theorem export_functions_cases (h : Host) (path : String) (prev : Option String)
    (fault : Option Fault) :
    ((export_functions h path prev fault).retval = h.functions.length ∧
      (export_functions h path prev fault).file = some (docStr h)) ∨
    (export_functions h path prev fault).retval = 0 := by
  cases hom : openFaultMsg fault with
  | some m =>
    right
    simp only [export_functions, runBody, hom]
  | none =>
    rcases runWriteList_cases fault (listWrites h) 0 "" with hok | ⟨⟨m, c, evs⟩, herr⟩
    · left
      simp [export_functions, runBody, hom, hok, finishBody,
        String.empty_append, exportCount_eq, docStr]
    · right
      simp only [export_functions, runBody, hom, herr, finishBody]

/-- A trace of the shape produced when the file was opened ends with the
close event. -/
theorem trace_ends_closed (l : List Ev) :
    (Ev.openedFile :: (l ++ [Ev.closedFile])).getLast? = some Ev.closedFile := by
  rw [← List.cons_append]
  exact List.getLast?_concat _

/-! ### Claim theorems -/

/-- C1: for every host list of N function records (N ≥ 0), a successful
run of `export_functions` (no exception) writes exactly N data rows to the
table, writes the summary line "Total: N functions", and returns N. -/
theorem claim1_success_writes_n_rows (h : Host) (path : String)
    (prev : Option String) :
    (export_functions h path prev none).retval = h.functions.length ∧
    (rowStrings h).length = h.functions.length ∧
    (export_functions h path prev none).file =
      some (titleLine h ++ (timeLine h ++ (tableHeader1 ++ (tableHeader2 ++
        (concatList (rowStrings h) ++ summaryLine h.functions.length))))) ∧
    summaryLine h.functions.length =
      "\n\nTotal: " ++ pyDec h.functions.length ++ " functions\n" := by
  refine ⟨?_, rowStrings_length h, ?_, rfl⟩
  · simp [export_functions_none]
  · simp [export_functions_none, docStr_eq]

/-- C2: any exception raised during file open, write or formatting inside
`export_functions` is caught; the diagnostic "Export failed: ..." carrying
the exception message is printed and the function returns 0.  The result
type of `export_functions` is exception-free, so nothing ever propagates
to its caller. -/
theorem claim2_exceptions_caught (h : Host) (path : String)
    (prev : Option String) (fault : Option Fault) (e : PyError)
    (herr : runBody h path prev fault = Except.error e) :
    (export_functions h path prev fault).retval = 0 ∧
    (export_functions h path prev fault).console =
      "Export failed: " ++ e.msg := by
  simp [export_functions, herr]

theorem claim2_exceptions_caught_witness :
    runBody hostTwo "o.md" none (some (Fault.openFail "disk full")) =
      Except.error ⟨"disk full", none, []⟩ ∧
    (export_functions hostTwo "o.md" none
        (some (Fault.openFail "disk full"))).retval = 0 ∧
    (export_functions hostTwo "o.md" none
        (some (Fault.openFail "disk full"))).console =
      "Export failed: " ++ "disk full" :=
  ⟨rfl, claim2_exceptions_caught hostTwo "o.md" none
    (some (Fault.openFail "disk full")) ⟨"disk full", none, []⟩ rfl⟩

/-- C3: if the output directory is missing or unwritable, `open` raises,
the function returns 0 and the prior file state is untouched (either no
file, or the previous content unchanged); moreover every run either writes
the table fully (returning the count) or is reported failed with 0. -/
theorem claim3_open_failure_atomic (h : Host) (path : String)
    (prev : Option String) (m : String) :
    export_functions h path prev (some (Fault.openFail m)) =
      ⟨0, prev, "Export failed: " ++ m, []⟩ ∧
    ∀ fault, ((export_functions h path prev fault).retval =
          h.functions.length ∧
        (export_functions h path prev fault).file = some (docStr h)) ∨
      (export_functions h path prev fault).retval = 0 :=
  ⟨export_functions_openFail h path prev m,
    fun fault => export_functions_cases h path prev fault⟩

/-- C4: the row index column starts at 1 and increases by exactly 1 per
row, and rows appear in host iteration order: the data row at 0-based
position j is rendered for index 1 + j and the j-th listed address. -/
theorem claim4_rows_sequentially_indexed (h : Host) (j ea : Nat)
    (hj : h.functions[j]? = some ea) :
    (rowStrings h)[j]? = some (rowLine h (1 + j) ea) := by
  simp [rowStrings_getElem?, hj]

theorem claim4_rows_sequentially_indexed_witness :
    hostTwo.functions[1]? = some 8208 ∧
    (rowStrings hostTwo)[1]? = some (rowLine hostTwo (1 + 1) 8208) :=
  ⟨rfl, claim4_rows_sequentially_indexed hostTwo 1 8208 rfl⟩

/-- C5: every written row shows the address as 0x followed by uppercase
hexadecimal digits with no leading zeros beyond natural width, and as a
base-10 integer; parsed back, both columns denote the same numeric value,
the address itself. -/
theorem claim5_address_columns_agree (h : Host) (j ea : Nat)
    (hj : h.functions[j]? = some ea) :
    (rowStrings h)[j]? =
      some ("| " ++ pyDec (1 + j) ++ " | `0x" ++ pyHexUpper ea ++ "` | " ++
        pyDec ea ++ " | `" ++ h.getName ea ++ "` |\n") ∧
    parseBase 16 (pyHexUpper ea) = ea ∧
    parseBase 10 (pyDec ea) = ea ∧
    (∀ c ∈ (pyHexUpper ea).data, c ∈ hexUpperChars) ∧
    (ea ≠ 0 → (pyHexUpper ea).data.head? ≠ some '0') := by
  refine ⟨?_, parseBase_natToBase 16 (by norm_num) (by norm_num) ea,
    parseBase_natToBase 10 (by norm_num) (by norm_num) ea,
    pyHexUpper_chars ea, fun h0 => pyHexUpper_no_leading_zero h0⟩
  simp [rowStrings_getElem?, hj, rowLine]

theorem claim5_address_columns_agree_witness :
    hostTwo.functions[0]? = some 4096 ∧
    parseBase 16 (pyHexUpper 4096) = 4096 ∧
    parseBase 10 (pyDec 4096) = 4096 :=
  ⟨rfl, (claim5_address_columns_agree hostTwo 0 4096 rfl).2.1,
    (claim5_address_columns_agree hostTwo 0 4096 rfl).2.2.1⟩

/-- C6: re-running the export to the same path fully replaces the prior
content: the written file does not depend on what was previously at the
path, identical inputs give identical results, and exporting again over
the produced file leaves it unchanged (overwrite, no appending). -/
theorem claim6_overwrite_idempotent (h : Host) (path : String)
    (prev prev2 : Option String) :
    (export_functions h path prev none).file = some (docStr h) ∧
    export_functions h path prev none = export_functions h path prev2 none ∧
    (export_functions h path
        ((export_functions h path prev none).file) none).file =
      (export_functions h path prev none).file := by
  simp only [export_functions_none]
  exact ⟨trivial, trivial, trivial⟩

/-- C7: with an empty function list the produced file holds exactly the
heading, the timestamp line and the table header followed by the line
"Total: 0 functions", and the function returns 0. -/
theorem claim7_empty_list (nm : Nat → String) (bin : String) (t : DateTime)
    (path : String) (prev : Option String) :
    (export_functions ⟨[], nm, bin, t⟩ path prev none).retval = 0 ∧
    (export_functions ⟨[], nm, bin, t⟩ path prev none).file =
      some ("# Function List - " ++ bin ++ "\n\n" ++
        ("Export Time: " ++ strftime t ++ "\n\n" ++
          ("| # | Address (Hex) | Address (Dec) | Function Name |\n" ++
            ("|------|--------------|------------|-------|\n" ++
              "\n\nTotal: 0 functions\n")))) := by
  have hrows : rowStrings ⟨[], nm, bin, t⟩ = [] := rfl
  have hsum : summaryLine 0 = "\n\nTotal: 0 functions\n" := rfl
  constructor
  · simp [export_functions_none]
  · simp only [export_functions_none, docStr_eq, hrows]
    simp [concatList, String.empty_append, hsum, titleLine, timeLine,
      tableHeader1, tableHeader2]

/-- C8: in the invocation shell, a falsy save path logs "Export cancelled"
and the exporter is not invoked; a real path invokes the exporter and the
informational success dialog is shown iff the returned count is positive. -/
theorem claim8_shell_dialog (env : MainEnv) :
    (pyFalsy env.askFileResult = true →
      main env = ⟨["Export cancelled"], none, false, none⟩) ∧
    (∀ p, env.askFileResult = some p → p ≠ "" →
      (main env).exportCalled = true ∧
      (main env).returnedCount =
        some (export_functions env.host p env.prev env.fault).retval ∧
      ((main env).infoDialog.isSome = true ↔
        0 < (export_functions env.host p env.prev env.fault).retval)) := by
  constructor
  · intro hf
    cases hask : env.askFileResult with
    | none => simp [main, hask]
    | some p =>
      rw [hask] at hf
      have hp : p = "" := by simpa [pyFalsy] using hf
      simp [main, hask, hp]
  · intro p hp hne
    simp only [main, hp, if_neg hne]
    refine ⟨trivial, trivial, ?_⟩
    by_cases h0 : 0 < (export_functions env.host p env.prev env.fault).retval
    · simp [h0]
    · simp [h0]

theorem claim8_shell_dialog_witness :
    main envCancel = ⟨["Export cancelled"], none, false, none⟩ ∧
    (main envGo).exportCalled = true ∧
    (main envGo).infoDialog.isSome = true := by
  refine ⟨(claim8_shell_dialog envCancel).1 rfl, ?_⟩
  have h2 := (claim8_shell_dialog envGo).2 "o.md" rfl (by decide)
  refine ⟨h2.1, h2.2.2.mpr ?_⟩
  have hr : envGo.fault = none := rfl
  rw [hr, export_functions_none]
  decide

/-- C9: the output file handle is closed unconditionally when the write
block exits: in every run whose trace contains the open event, the trace
ends with the close event, whether the writes completed or raised. -/
theorem claim9_handle_closed (h : Host) (path : String) (prev : Option String)
    (fault : Option Fault)
    (hopen : Ev.openedFile ∈ (export_functions h path prev fault).trace) :
    ((export_functions h path prev fault).trace).getLast? =
      some Ev.closedFile := by
  cases hom : openFaultMsg fault with
  | some m =>
    exfalso
    simp [export_functions, runBody, hom] at hopen
  | none =>
    rcases hrw : runWriteList fault (listWrites h) 0 "" with ⟨m, c, evs⟩ | ⟨c, evs⟩
    · simp only [export_functions, runBody, hom, hrw, finishBody]
      exact trace_ends_closed evs
    · simp only [export_functions, runBody, hom, hrw, finishBody]
      exact trace_ends_closed evs

theorem claim9_handle_closed_witness :
    Ev.openedFile ∈ (export_functions hostEmpty "o.md" none none).trace ∧
    ((export_functions hostEmpty "o.md" none none).trace).getLast? =
      some Ev.closedFile := by
  have hm : Ev.openedFile ∈ (export_functions hostEmpty "o.md" none none).trace := by
    rw [export_functions_none]
    exact List.mem_cons_self _ _
  exact ⟨hm, claim9_handle_closed hostEmpty "o.md" none none hm⟩

/-- C10: `export_functions` is deterministic in its inputs — two runs
agreeing on the output path, the prior file content, the fault
environment, the host function list, the name resolver, the binary display
name and the clock reading produce identical results (byte-identical file
content and equal return values). -/
theorem claim10_deterministic (path : String) (prev : Option String)
    (fault : Option Fault) (h1 h2 : Host)
    (hf : h1.functions = h2.functions) (hn : h1.getName = h2.getName)
    (hb : h1.rootFilename = h2.rootFilename) (ht : h1.now = h2.now) :
    export_functions h1 path prev fault = export_functions h2 path prev fault := by
  have he : h1 = h2 := by
    cases h1
    cases h2
    congr 1
  rw [he]

theorem claim10_deterministic_witness :
    export_functions hostTwo "o.md" none none =
      export_functions hostTwo "o.md" none none :=
  claim10_deterministic "o.md" none none hostTwo hostTwo rfl rfl rfl rfl

end ExportFunctions
